import Mathlib

/-!
Verification of the task-board store and drag-and-drop protocol
(`src/unnamed/part_000`, with the earlier variant `src/src/app.ts`).

The TypeScript source is shallowly embedded: the store's mutable state
becomes explicit state passing, listener callbacks become listener
identifiers paired with the snapshot they are handed (so the notification
sequence of an operation is an observable event list), and the one source
of nondeterminism, `Math.random().toString()` in `addProject`, becomes an
explicit string argument drawn from an external entropy stream.
-/

namespace DragDrop

/-- Embeds `enum ProjectStatus { Active, Finished }`. -/
inductive ProjectStatus where
  | Active
  | Finished
deriving DecidableEq, Repr

/-- Embeds `class Project` (fields `id`, `title`, `description`,
`numPeople`, `status`). -/
structure Project where
  id : String
  title : String
  description : String
  numPeople : Int
  status : ProjectStatus
deriving DecidableEq, Repr

/-- Embeds the state of `class ProjectState extends State<Project>`:
the private `projects` array together with the inherited `listeners`
array.  A listener callback is represented by an identifier (`Nat`);
what a callback receives is recorded in the event list returned by
each mutating operation. -/
structure ProjectState where
  projects : List Project
  listeners : List Nat
deriving DecidableEq, Repr

/-- A notification event: which listener was invoked, with which
snapshot of the projects collection. -/
abbrev NotifyEvent := Nat × List Project

/-- Embeds `State.addListener`: `this.listeners.push(listenerFn)`. -/
def addListener (s : ProjectState) (listenerFn : Nat) : ProjectState :=
  { s with listeners := s.listeners ++ [listenerFn] }

/-- Embeds `ProjectState.updateListeners`: iterates over `this.listeners`
in order, invoking each with `this.projects.slice()` (a copy of the
current collection).  The returned list is the sequence of listener
invocations the call performs, in order, before returning. -/
def updateListeners (s : ProjectState) : List NotifyEvent :=
  s.listeners.map (fun listenerFn => (listenerFn, s.projects))

/-- Embeds `ProjectState.addProject`.  The id produced by
`Math.random().toString()` is passed in explicitly as `rid`, a value
drawn from the runtime's entropy source.  Returns the new state and the
notification events issued before the call returns. -/
def addProject (s : ProjectState) (rid title description : String)
    (numPeople : Int) : ProjectState × List NotifyEvent :=
  let newProject : Project :=
    { id := rid, title := title, description := description,
      numPeople := numPeople, status := ProjectStatus.Active }
  let s' := { s with projects := s.projects ++ [newProject] }
  (s', updateListeners s')

/-- The assignment `project.status = newStatus` applied to the object found by
`this.projects.find(prj => prj.id === projectId)`: the first element
whose id matches has its status field overwritten in place; every other
element is untouched. -/
def setStatusFirst : List Project → String → ProjectStatus → List Project
  | [], _, _ => []
  | prj :: rest, projectId, newStatus =>
    if prj.id = projectId then { prj with status := newStatus } :: rest
    else prj :: setStatusFirst rest projectId newStatus

/-- Embeds `ProjectState.moveProject`: linear scan by id; if the project
is found and its status differs from `newStatus`, mutate that status in
place and notify; otherwise do nothing. -/
def moveProject (s : ProjectState) (projectId : String)
    (newStatus : ProjectStatus) : ProjectState × List NotifyEvent :=
  match s.projects.find? (fun prj => prj.id = projectId) with
  | some project =>
    if project.status ≠ newStatus then
      let s' := { s with projects := setStatusFirst s.projects projectId newStatus }
      (s', updateListeners s')
    else (s, [])
  | none => (s, [])

/-- A sequence of `addProject` calls, each paired with the string its
`Math.random().toString()` draw produced. -/
def runCreates (s : ProjectState) :
    List (String × String × String × Int) → ProjectState
  | [] => s
  | (rid, title, description, numPeople) :: rest =>
    runCreates (addProject s rid title description numPeople).1 rest

/-- One store operation, for reasoning over arbitrary operation
sequences: `addProject` (with its entropy draw), `moveProject`, or
`addListener`.  These are the only operations `ProjectState` exposes;
none removes a project. -/
inductive Op where
  | add (rid title description : String) (numPeople : Int)
  | move (projectId : String) (newStatus : ProjectStatus)
  | listen (listenerFn : Nat)

/-- Applies one store operation to a state. -/
def applyOp (s : ProjectState) : Op → ProjectState
  | .add rid title description numPeople =>
    (addProject s rid title description numPeople).1
  | .move projectId newStatus => (moveProject s projectId newStatus).1
  | .listen listenerFn => addListener s listenerFn

/-- Applies a sequence of store operations. -/
def runOps (s : ProjectState) : List Op → ProjectState
  | [] => s
  | op :: rest => runOps (applyOp s op) rest

/-! ## Singleton accessor

`ProjectState.getInstance` reads the private static field `instance`;
construction (`new ProjectState()`) is modelled by an allocation
counter, so distinct constructions yield distinct instance tokens. -/

/-- The static context of `class ProjectState`: the cached `instance`
(a token naming a constructed object) and the allocation counter
modelling how many `new ProjectState()` constructions have happened. -/
structure StaticCtx where
  instRef : Option Nat
  nextAlloc : Nat
deriving DecidableEq, Repr

/-- Embeds `ProjectState.getInstance`: return the cached instance if
present, otherwise construct a fresh one, cache it and return it. -/
def getInstance (c : StaticCtx) : Nat × StaticCtx :=
  match c.instRef with
  | some i => (i, c)
  | none =>
    (c.nextAlloc, { instRef := some c.nextAlloc, nextAlloc := c.nextAlloc + 1 })

/-- Runs `n` successive `getInstance()` calls: the list of instances returned
and the final static context. -/
def callsFrom (c : StaticCtx) : Nat → List Nat × StaticCtx
  | 0 => ([], c)
  | n + 1 =>
    let r := getInstance c
    let rest := callsFrom r.2 n
    (r.1 :: rest.1, rest.2)

/-! ## Validation and the input form -/

/-- A JavaScript `string | number` value, as stored in
`Validatable.value`. -/
inductive JSValue where
  | str (s : String)
  | num (n : Int)
deriving DecidableEq, Repr

/-- Models `value.toString()`. -/
def JSValue.toStr : JSValue → String
  | .str s => s
  | .num n => toString n

/-- JavaScript's `String.prototype.trim`, at the character level: strip
leading and trailing whitespace. -/
def jsTrim (s : String) : String :=
  String.mk
    (((s.data.dropWhile Char.isWhitespace).reverse.dropWhile
      Char.isWhitespace).reverse)

/-- Embeds `interface Validatable` (optional fields are `Option`). -/
structure Validatable where
  value : JSValue
  required : Bool
  minLength : Option Int := none
  maxLength : Option Int := none
  min : Option Int := none
  max : Option Int := none

/-- Embeds `function validate(validatableInput)`: the chain of `isValid
= isValid && ...` updates.  The `typeof value === 'string'` (resp.
`'number'`) guards become matches on `JSValue`; `minLength != null`
becomes `isSome`. -/
def validate (validatableInput : Validatable) : Bool := Id.run do
  let mut isValid := true
  if validatableInput.required then
    isValid := isValid && ((jsTrim validatableInput.value.toStr).length ≠ 0 : Bool)
  match validatableInput.minLength, validatableInput.value with
  | some ml, .str s => isValid := isValid && ((s.length : Int) ≥ ml : Bool)
  | _, _ => pure ()
  match validatableInput.maxLength, validatableInput.value with
  | some ml, .str s => isValid := isValid && ((s.length : Int) ≤ ml : Bool)
  | _, _ => pure ()
  match validatableInput.min, validatableInput.value with
  | some mn, .num n => isValid := isValid && (n ≥ mn : Bool)
  | _, _ => pure ()
  match validatableInput.max, validatableInput.value with
  | some mx, .num n => isValid := isValid && (n ≤ mx : Bool)
  | _, _ => pure ()
  return isValid

/-- The `titleValidatable` built by `gatherUserInput`. -/
def titleValidatable (enteredTitle : String) : Validatable :=
  { value := .str enteredTitle, required := true }

/-- The `descriptionValidatable` built by `gatherUserInput`. -/
def descriptionValidatable (enteredDescription : String) : Validatable :=
  { value := .str enteredDescription, required := true,
    minLength := some 5, maxLength := some 500 }

/-- The `peopleValidatable` built by `gatherUserInput`.  Note the value
is the raw input *string* (`enteredPeople`), so the `min`/`max` branches
of `validate`, which require `typeof value === 'number'`, never fire. -/
def peopleValidatable (enteredPeople : String) : Validatable :=
  { value := .str enteredPeople, required := true,
    min := some 2, max := some 50 }

/-- Embeds `ProjectInput.gatherUserInput`.  The JavaScript unary `+` in
`+enteredPeople` (string-to-number coercion) is passed in as `plus`;
`none` models the `alert('invalid input'); return;` path. -/
def gatherUserInput (plus : String → Int)
    (enteredTitle enteredDescription enteredPeople : String) :
    Option (String × String × Int) :=
  if !validate (titleValidatable enteredTitle)
      && !validate (descriptionValidatable enteredDescription)
      && !validate (peopleValidatable enteredPeople) then
    none
  else
    some (enteredTitle, enteredDescription, plus enteredPeople)

/-! ## Drag-and-drop handlers -/

/-- A drag gesture's transfer payload: the declared format list
(`dataTransfer.types`) and the stored data per format
(`dataTransfer.getData`, which yields `""` for an absent format). -/
structure DataTransfer where
  types : List String
  getData : String → String

/-- A drag event as the handlers consult it: `event.dataTransfer` may be
null. -/
structure DragEvent where
  dataTransfer : Option DataTransfer

/-- The observable effect of `ProjectList.dragOverHandler`:
whether `event.preventDefault()` was called (claiming the drop) and
whether the `droppable` class was added to the list element. -/
structure DragOverResult where
  preventDefault : Bool
  droppableAdded : Bool
deriving DecidableEq, Repr

/-- Embeds `ProjectList.dragOverHandler`: acts only when
`event.dataTransfer && event.dataTransfer.types[0] == 'text/plain'`
(`types[0]` of an empty list is `undefined`, which is `!= 'text/plain'`). -/
def dragOverHandler (event : DragEvent) : DragOverResult :=
  match event.dataTransfer with
  | some dt =>
    if dt.types.head? = some "text/plain" then
      { preventDefault := true, droppableAdded := true }
    else
      { preventDefault := false, droppableAdded := false }
  | none => { preventDefault := false, droppableAdded := false }

/-- Modelled from the spec: the platform fires a `drop` event on a
target only if the target claimed the hover by calling
`event.preventDefault()` in its dragover handler ("the target never
accepts the drop; default platform behavior (reject) applies").  The
browser's drop gating is not part of the repository's code. -/
def dropFires (event : DragEvent) : Bool :=
  (dragOverHandler event).preventDefault

/-- The `'active' | 'finished'` column type of a `ProjectList`. -/
inductive ColumnType where
  | active
  | finished
deriving DecidableEq, Repr

/-- The `dropType` computed by `ProjectList.dropHandler`:
`this.type === 'active' ? ProjectStatus.Active : ProjectStatus.Finished`. -/
def dropType : ColumnType → ProjectStatus
  | .active => ProjectStatus.Active
  | .finished => ProjectStatus.Finished

/-- Embeds `ProjectList.dropHandler` up to the store call: the single
transition request `(prjId, dropType)` it issues, where `prjId =
event.dataTransfer!.getData('text/plain')`.  (`dataTransfer!` asserts
the payload is present, hence the `DataTransfer` argument.) -/
def dropRequest (ty : ColumnType) (dt : DataTransfer) :
    String × ProjectStatus :=
  (dt.getData "text/plain", dropType ty)

/-- Embeds the whole of `ProjectList.dropHandler` acting on the store:
its only state effect is the single `projectState.moveProject(prjId,
dropType)` call. -/
def dropHandler (ty : ColumnType) (dt : DataTransfer) (s : ProjectState) :
    ProjectState × List NotifyEvent :=
  moveProject s (dropRequest ty dt).1 (dropRequest ty dt).2

/-! ## Reference-level model of snapshots

`updateListeners` hands each listener `this.projects.slice()`.
`slice()` copies the *array*, not the `Project` objects it holds: the
copy contains the same object references.  To reason about what a
listener's mutation of its snapshot can reach, projects are modelled as
references (indices) into a heap of `Project` records; the store and
every snapshot hold lists of references. -/

/-- An object reference. -/
abbrev Ref := Nat

/-- The heap of allocated `Project` objects, indexed by `Ref`. -/
abbrev Heap := List Project

/-- The store's state at the reference level: `projects` is the array
of object references, `listeners` as before. -/
structure ProjectStateRefs where
  projects : List Ref
  listeners : List Nat
deriving DecidableEq, Repr

/-- Models `this.projects.slice()`: a fresh array holding the same object
references. -/
def slice (refs : List Ref) : List Ref := refs

/-- The reference-level `updateListeners`: each listener receives
`slice` of the store's reference array. -/
def updateListenersRefs (s : ProjectStateRefs) : List (Nat × List Ref) :=
  s.listeners.map (fun listenerFn => (listenerFn, slice s.projects))

/-- A listener assigning to a field of an object reached through its
snapshot (e.g. `snapshot[i].status = ...`): a heap update at that
reference. -/
def heapWrite (h : Heap) (r : Ref) (p : Project) : Heap := h.set r p

/-- The project records an array of references denotes under a heap:
what the store (or any holder of the array) observes when reading. -/
def readRefs (h : Heap) (refs : List Ref) : List (Option Project) :=
  refs.map (fun r => h.get? r)

/-! ## Helper lemmas -/

theorem setStatusFirst_length (l : List Project) (projectId : String)
    (newStatus : ProjectStatus) :
    (setStatusFirst l projectId newStatus).length = l.length := by
  induction l with
  | nil => rfl
  | cons a rest ih =>
    by_cases ha : a.id = projectId <;> simp [setStatusFirst, ha, ih]

theorem setStatusFirst_map_id (l : List Project) (projectId : String)
    (newStatus : ProjectStatus) :
    (setStatusFirst l projectId newStatus).map Project.id = l.map Project.id := by
  induction l with
  | nil => rfl
  | cons a rest ih =>
    by_cases ha : a.id = projectId <;> simp [setStatusFirst, ha, ih]

/-- A `find` followed by an in-place field assignment on the found object
rewrites exactly the first matching position of the array. -/
theorem setStatusFirst_spec (l : List Project) (projectId : String)
    (newStatus : ProjectStatus) (p : Project)
    (hfind : l.find? (fun prj => prj.id = projectId) = some p) :
    ∃ i, ∃ hi : i < l.length,
      l.get ⟨i, hi⟩ = p ∧ p.id = projectId ∧
      setStatusFirst l projectId newStatus = l.set i { p with status := newStatus } := by
  induction l with
  | nil => simp at hfind
  | cons a rest ih =>
    by_cases ha : a.id = projectId
    · rw [List.find?_cons_of_pos _ (by simpa using ha)] at hfind
      obtain rfl : a = p := by simpa using hfind
      exact ⟨0, by simp, rfl, ha, by simp [setStatusFirst, ha]⟩
    · rw [List.find?_cons_of_neg _ (by simpa using ha)] at hfind
      obtain ⟨i, hi, hget, hpid, hset⟩ := ih hfind
      refine ⟨i + 1, by simpa using Nat.succ_lt_succ hi, by simpa using hget, hpid, ?_⟩
      simp [setStatusFirst, ha, hset]

theorem moveProject_length (s : ProjectState) (projectId : String)
    (newStatus : ProjectStatus) :
    (moveProject s projectId newStatus).1.projects.length = s.projects.length := by
  unfold moveProject
  cases hf : s.projects.find? (fun prj => prj.id = projectId) with
  | none => rfl
  | some project =>
    by_cases hst : project.status = newStatus <;>
      simp [hst, setStatusFirst_length]

theorem moveProject_map_id (s : ProjectState) (projectId : String)
    (newStatus : ProjectStatus) :
    (moveProject s projectId newStatus).1.projects.map Project.id
      = s.projects.map Project.id := by
  unfold moveProject
  cases hf : s.projects.find? (fun prj => prj.id = projectId) with
  | none => rfl
  | some project =>
    by_cases hst : project.status = newStatus <;>
      simp [hst, setStatusFirst_map_id]

theorem runCreates_map_id (creates : List (String × String × String × Int))
    (s : ProjectState) :
    (runCreates s creates).projects.map Project.id
      = s.projects.map Project.id ++ creates.map (fun c => c.1) := by
  induction creates generalizing s with
  | nil => simp [runCreates]
  | cons c rest ih =>
    obtain ⟨rid, title, description, numPeople⟩ := c
    simp [runCreates, ih, addProject]

theorem callsFrom_cached (c : StaticCtx) (i : Nat) (h : c.instRef = some i) :
    ∀ n, callsFrom c n = (List.replicate n i, c) := by
  intro n
  induction n with
  | zero => rfl
  | succ m ih => simp [callsFrom, getInstance, h, ih, List.replicate_succ]

/-! ## Claims -/

/-- C2: `addProject` appends a new project with status `Active` at the
end of the sequence, leaves the listener registrations unchanged, and
then invokes every listener registered at that moment exactly once, in
registration order, with a snapshot containing the new item — all as
part of the call (the events are produced before `addProject` returns). -/
theorem addProject_appends_and_notifies (s : ProjectState)
    (rid title description : String) (numPeople : Int) :
    (addProject s rid title description numPeople).1.projects
        = s.projects ++ [⟨rid, title, description, numPeople, ProjectStatus.Active⟩] ∧
    (addProject s rid title description numPeople).1.listeners = s.listeners ∧
    (addProject s rid title description numPeople).2
        = s.listeners.map (fun listenerFn =>
            (listenerFn,
              s.projects ++ [⟨rid, title, description, numPeople, ProjectStatus.Active⟩])) ∧
    ∀ ev ∈ (addProject s rid title description numPeople).2,
      (⟨rid, title, description, numPeople, ProjectStatus.Active⟩ : Project) ∈ ev.2 := by
  refine ⟨rfl, rfl, rfl, ?_⟩
  intro ev hev
  simp only [addProject, updateListeners, List.mem_map] at hev
  obtain ⟨listenerFn, _, rfl⟩ := hev
  simp

/-- C2 witness: a concrete `addProject` call on a store with two
listeners. -/
theorem addProject_appends_and_notifies_witness :
    (addProject ⟨[], [3, 4]⟩ "0.1" "T" "DDDDD" 2).1.projects
        = [⟨"0.1", "T", "DDDDD", 2, ProjectStatus.Active⟩] ∧
    (addProject ⟨[], [3, 4]⟩ "0.1" "T" "DDDDD" 2).1.listeners = [3, 4] ∧
    (addProject ⟨[], [3, 4]⟩ "0.1" "T" "DDDDD" 2).2
        = [3, 4].map (fun listenerFn =>
            (listenerFn, [⟨"0.1", "T", "DDDDD", 2, ProjectStatus.Active⟩])) ∧
    ∀ ev ∈ (addProject ⟨[], [3, 4]⟩ "0.1" "T" "DDDDD" 2).2,
      (⟨"0.1", "T", "DDDDD", 2, ProjectStatus.Active⟩ : Project) ∈ ev.2 := by
  have h := addProject_appends_and_notifies ⟨[], [3, 4]⟩ "0.1" "T" "DDDDD" 2
  simpa using h

/-- The two silent branches of `moveProject`: `find` misses, or the
found project already carries the requested status. -/
theorem moveProject_silent (s : ProjectState) (projectId : String)
    (newStatus : ProjectStatus)
    (h : (∀ p ∈ s.projects, p.id ≠ projectId) ∨
         (∀ p ∈ s.projects, p.id = projectId → p.status = newStatus)) :
    moveProject s projectId newStatus = (s, []) := by
  unfold moveProject
  cases hf : s.projects.find? (fun prj => prj.id = projectId) with
  | none => rfl
  | some project =>
    have hid : project.id = projectId := by simpa using List.find?_some hf
    have hmem : project ∈ s.projects := List.mem_of_find?_eq_some hf
    rcases h with h | h
    · exact absurd hid (h project hmem)
    · simp [h project hmem hid]

/-- C3: `moveProject` with an id matching no stored project, or with an
id whose stored project already has the requested status, is a silent
no-op: the state (projects and listeners) is unchanged and no listener
is invoked. -/
theorem moveProject_noop (s : ProjectState) (projectId : String)
    (newStatus : ProjectStatus)
    (h : (∀ p ∈ s.projects, p.id ≠ projectId) ∨
         (∀ p ∈ s.projects, p.id = projectId → p.status = newStatus)) :
    moveProject s projectId newStatus = (s, []) :=
  moveProject_silent s projectId newStatus h

/-- C3 witness: a nonexistent id and a same-status transition, both on a
concrete store with a registered listener. -/
theorem moveProject_noop_witness :
    moveProject ⟨[⟨"a", "t", "d", 2, ProjectStatus.Active⟩], [7]⟩
      "zzz" ProjectStatus.Finished
    = (⟨[⟨"a", "t", "d", 2, ProjectStatus.Active⟩], [7]⟩, []) ∧
    moveProject ⟨[⟨"a", "t", "d", 2, ProjectStatus.Active⟩], [7]⟩
      "a" ProjectStatus.Active
    = (⟨[⟨"a", "t", "d", 2, ProjectStatus.Active⟩], [7]⟩, []) :=
  ⟨moveProject_noop _ _ _ (Or.inl (by decide)),
   moveProject_noop _ _ _ (Or.inr (by decide))⟩

/-- C10: the store never removes work items: `addProject` grows the
collection by exactly one, `moveProject` and `addListener` preserve its
size, and over any sequence of store operations the item count is
non-decreasing. -/
theorem store_never_removes :
    (∀ s rid title description numPeople,
      (addProject s rid title description numPeople).1.projects.length
        = s.projects.length + 1) ∧
    (∀ s projectId newStatus,
      (moveProject s projectId newStatus).1.projects.length
        = s.projects.length) ∧
    (∀ s listenerFn, (addListener s listenerFn).projects.length
        = s.projects.length) ∧
    (∀ s ops, s.projects.length ≤ (runOps s ops).projects.length) := by
  have hadd : ∀ s rid title description numPeople,
      (addProject s rid title description numPeople).1.projects.length
        = s.projects.length + 1 := by
    intro s rid title description numPeople
    simp [addProject]
  refine ⟨hadd, moveProject_length, fun s listenerFn => rfl, ?_⟩
  intro s ops
  induction ops generalizing s with
  | nil => exact Nat.le_refl _
  | cons op rest ih =>
    refine Nat.le_trans ?_ (ih (applyOp s op))
    cases op with
    | add rid title description numPeople =>
      refine Nat.le_of_lt ?_
      rw [applyOp, hadd]
      exact Nat.lt_succ_self _
    | move projectId newStatus =>
      exact Nat.le_of_eq (moveProject_length s projectId newStatus).symm
    | listen listenerFn => exact Nat.le_refl _

/-- C4: on a store containing a project with the given id whose status
differs from `newStatus`, `moveProject` rewrites exactly that project's
status: the project found by the scan sits at some position `i`, its id
matches, the resulting collection is the original with position `i`
replaced by the same record with only `status` overwritten (so its id,
title, description and people count, every other position, the length
and the order are all unchanged), the listener registrations are
untouched, and every registered listener is notified, in order, with the
updated snapshot. -/
theorem moveProject_frame (s : ProjectState) (projectId : String)
    (newStatus : ProjectStatus) (p : Project)
    (hfind : s.projects.find? (fun prj => prj.id = projectId) = some p)
    (hst : p.status ≠ newStatus) :
    ∃ i, ∃ hi : i < s.projects.length,
      s.projects.get ⟨i, hi⟩ = p ∧ p.id = projectId ∧
      (moveProject s projectId newStatus).1.projects
        = s.projects.set i { p with status := newStatus } ∧
      (moveProject s projectId newStatus).1.projects.length = s.projects.length ∧
      (∀ j, j ≠ i →
        (moveProject s projectId newStatus).1.projects[j]? = s.projects[j]?) ∧
      (moveProject s projectId newStatus).1.listeners = s.listeners ∧
      (moveProject s projectId newStatus).2
        = s.listeners.map (fun listenerFn =>
            (listenerFn, s.projects.set i { p with status := newStatus })) := by
  obtain ⟨i, hi, hget, hpid, hset⟩ := setStatusFirst_spec s.projects projectId newStatus p hfind
  have hmv : moveProject s projectId newStatus
      = ({ s with projects := s.projects.set i { p with status := newStatus } },
         (s.listeners.map (fun listenerFn =>
            (listenerFn, s.projects.set i { p with status := newStatus })))) := by
    simp only [moveProject, hfind, if_pos hst, hset, updateListeners]
  refine ⟨i, hi, hget, hpid, by rw [hmv], by rw [hmv]; simp, ?_, by rw [hmv], by rw [hmv]⟩
  intro j hj
  rw [hmv]
  exact List.getElem?_set_ne (fun h => hj h.symm)

/-- C4 witness: moving the second of two projects to `Finished` on a
concrete store with one listener. -/
theorem moveProject_frame_witness :
    ∃ i, ∃ hi : i <
      (⟨[⟨"a", "ta", "da", 2, ProjectStatus.Active⟩,
         ⟨"b", "tb", "db", 3, ProjectStatus.Active⟩], [7]⟩ :
        ProjectState).projects.length,
      (⟨[⟨"a", "ta", "da", 2, ProjectStatus.Active⟩,
         ⟨"b", "tb", "db", 3, ProjectStatus.Active⟩], [7]⟩ :
        ProjectState).projects.get ⟨i, hi⟩
        = ⟨"b", "tb", "db", 3, ProjectStatus.Active⟩ ∧
      (⟨"b", "tb", "db", 3, ProjectStatus.Active⟩ : Project).id = "b" ∧
      (moveProject ⟨[⟨"a", "ta", "da", 2, ProjectStatus.Active⟩,
         ⟨"b", "tb", "db", 3, ProjectStatus.Active⟩], [7]⟩
          "b" ProjectStatus.Finished).1.projects
        = (⟨[⟨"a", "ta", "da", 2, ProjectStatus.Active⟩,
           ⟨"b", "tb", "db", 3, ProjectStatus.Active⟩], [7]⟩ :
          ProjectState).projects.set i
            { (⟨"b", "tb", "db", 3, ProjectStatus.Active⟩ : Project) with
              status := ProjectStatus.Finished } ∧
      (moveProject ⟨[⟨"a", "ta", "da", 2, ProjectStatus.Active⟩,
         ⟨"b", "tb", "db", 3, ProjectStatus.Active⟩], [7]⟩
          "b" ProjectStatus.Finished).1.projects.length
        = (⟨[⟨"a", "ta", "da", 2, ProjectStatus.Active⟩,
           ⟨"b", "tb", "db", 3, ProjectStatus.Active⟩], [7]⟩ :
          ProjectState).projects.length ∧
      (∀ j, j ≠ i →
        (moveProject ⟨[⟨"a", "ta", "da", 2, ProjectStatus.Active⟩,
           ⟨"b", "tb", "db", 3, ProjectStatus.Active⟩], [7]⟩
            "b" ProjectStatus.Finished).1.projects[j]?
          = (⟨[⟨"a", "ta", "da", 2, ProjectStatus.Active⟩,
             ⟨"b", "tb", "db", 3, ProjectStatus.Active⟩], [7]⟩ :
            ProjectState).projects[j]?) ∧
      (moveProject ⟨[⟨"a", "ta", "da", 2, ProjectStatus.Active⟩,
         ⟨"b", "tb", "db", 3, ProjectStatus.Active⟩], [7]⟩
          "b" ProjectStatus.Finished).1.listeners = [7] ∧
      (moveProject ⟨[⟨"a", "ta", "da", 2, ProjectStatus.Active⟩,
         ⟨"b", "tb", "db", 3, ProjectStatus.Active⟩], [7]⟩
          "b" ProjectStatus.Finished).2
        = [7].map (fun listenerFn =>
            (listenerFn,
              (⟨[⟨"a", "ta", "da", 2, ProjectStatus.Active⟩,
                 ⟨"b", "tb", "db", 3, ProjectStatus.Active⟩], [7]⟩ :
                ProjectState).projects.set i
                  { (⟨"b", "tb", "db", 3, ProjectStatus.Active⟩ : Project) with
                    status := ProjectStatus.Finished })) :=
  moveProject_frame
    ⟨[⟨"a", "ta", "da", 2, ProjectStatus.Active⟩,
      ⟨"b", "tb", "db", 3, ProjectStatus.Active⟩], [7]⟩
    "b" ProjectStatus.Finished ⟨"b", "tb", "db", 3, ProjectStatus.Active⟩
    (by decide) (by decide)

/-- C1 counterexample: identifiers are `Math.random().toString()` draws,
and nothing in `addProject` guards against the entropy source repeating
a value (indeed in the `app.ts` variant the id expression is
`Math.random.toString()` — the function object stringified, the *same*
string on every call).  Two creates whose draws coincide leave the store
with two equal identifiers, so the ids are not pairwise distinct for
every sequence of create calls. -/
theorem addProject_ids_can_collide :
    ¬ ((runCreates ⟨[], []⟩
        [("0.5", "a", "aaaaa", 2), ("0.5", "b", "bbbbb", 3)]).projects.map
          Project.id).Nodup := by
  decide

/-- C1 amended: ids are pairwise distinct for every sequence of create
calls *whose random draws are pairwise distinct*; and an id, set at
creation, is never mutated afterwards (`moveProject` rewrites only a
status, `addProject` appends without touching existing ids, and
`addListener` does not touch the collection at all). -/
theorem create_ids_distinct (creates : List (String × String × String × Int))
    (h : (creates.map (fun c => c.1)).Nodup) :
    ((runCreates ⟨[], []⟩ creates).projects.map Project.id).Nodup ∧
    (∀ s projectId newStatus,
      (moveProject s projectId newStatus).1.projects.map Project.id
        = s.projects.map Project.id) ∧
    (∀ s rid title description numPeople,
      (addProject s rid title description numPeople).1.projects.map Project.id
        = s.projects.map Project.id ++ [rid]) ∧
    (∀ s listenerFn, (addListener s listenerFn).projects = s.projects) := by
  refine ⟨?_, moveProject_map_id, ?_, fun s listenerFn => rfl⟩
  · rw [runCreates_map_id]
    simpa using h
  · intro s rid title description numPeople
    simp [addProject]

/-- C1 witness: three creates with pairwise distinct draws. -/
theorem create_ids_distinct_witness :
    (((List.map (fun c => c.1)
        [("0.1", "a", "aaaaa", 2), ("0.2", "b", "bbbbb", 3),
         ("0.3", "c", "ccccc", 4)]).Nodup) ∧
      ((runCreates ⟨[], []⟩
        [("0.1", "a", "aaaaa", 2), ("0.2", "b", "bbbbb", 3),
         ("0.3", "c", "ccccc", 4)]).projects.map Project.id).Nodup) :=
  ⟨by decide,
   (create_ids_distinct
      [("0.1", "a", "aaaaa", 2), ("0.2", "b", "bbbbb", 3),
       ("0.3", "c", "ccccc", 4)] (by decide)).1⟩

/-- C9: `getInstance` lazily constructs the store on the first call
(the cache goes from empty to holding the token allocated by exactly one
`new ProjectState()` — the allocation counter advances once across all
`n` calls) and every call returns that same cached instance; in
particular any two consecutive calls return the same instance. -/
theorem getInstance_single (a n : Nat) (hn : 0 < n) :
    (callsFrom ⟨none, a⟩ n).1 = List.replicate n a ∧
    (callsFrom ⟨none, a⟩ n).2 = ⟨some a, a + 1⟩ ∧
    (∀ c : StaticCtx, (getInstance (getInstance c).2).1 = (getInstance c).1) := by
  obtain ⟨m, rfl⟩ : ∃ m, n = m + 1 :=
    ⟨n - 1, (Nat.succ_pred_eq_of_pos hn).symm⟩
  have hfirst : getInstance ⟨none, a⟩ = (a, ⟨some a, a + 1⟩) := rfl
  have hrest := callsFrom_cached ⟨some a, a + 1⟩ a rfl m
  refine ⟨?_, ?_, ?_⟩
  · simp [callsFrom, hfirst, hrest, List.replicate_succ]
  · simp [callsFrom, hfirst, hrest]
  · intro c
    cases hc : c.instRef with
    | some i => simp [getInstance, hc]
    | none => simp [getInstance, hc]

/-- C9 witness: four calls starting from the uninitialized static
field. -/
theorem getInstance_single_witness :
    (callsFrom ⟨none, 0⟩ 4).1 = List.replicate 4 0 ∧
    (callsFrom ⟨none, 0⟩ 4).2 = ⟨some 0, 0 + 1⟩ ∧
    (∀ c : StaticCtx, (getInstance (getInstance c).2).1 = (getInstance c).1) :=
  getInstance_single 0 4 (by decide)

/-- C5 counterexample: `slice()` copies only the array, not the
`Project` objects.  On a one-project store with one listener, the
snapshot handed to the listener holds the same object reference as the
store, so when the listener overwrites that object's status through its
snapshot, the store's own collection reads back changed: the claimed
snapshot isolation against mutating a contained item fails. -/
theorem snapshot_item_mutation_reaches_store :
    let p : Project := ⟨"a", "t", "d", 2, ProjectStatus.Active⟩
    let h0 : Heap := [p]
    let store : ProjectStateRefs := ⟨[0], [7]⟩
    let snapshot : List Ref := ((updateListenersRefs store).map Prod.snd).headI
    let h1 : Heap :=
      heapWrite h0 snapshot.headI { p with status := ProjectStatus.Finished }
    readRefs h1 store.projects ≠ readRefs h0 store.projects := by
  decide

/-- C5 amended: each listener receives a fresh *array* (so replacing or
reordering the snapshot sequence itself cannot alter the store's
sequence), but the array is a shallow copy: it holds the very object
references the store holds, and every listener's snapshot holds the same
ones.  Consequently a write to a project object reached through a
snapshot is a write to the object the store and all other snapshots
reference: after such a write the store observes the new record. -/
theorem snapshots_share_refs (h : Heap) (s : ProjectStateRefs)
    (ev : Nat × List Ref) (hmem : ev ∈ updateListenersRefs s) :
    ev.2 = s.projects ∧
    (∀ ev₂ ∈ updateListenersRefs s, ev.2 = ev₂.2) ∧
    (∀ r ∈ ev.2, ∀ p : Project, r < h.length →
      some p ∈ readRefs (heapWrite h r p) s.projects) := by
  have hsnap : ev.2 = s.projects := by
    simp only [updateListenersRefs, List.mem_map] at hmem
    obtain ⟨listenerFn, _, rfl⟩ := hmem
    rfl
  refine ⟨hsnap, ?_, ?_⟩
  · intro ev₂ hmem₂
    simp only [updateListenersRefs, List.mem_map] at hmem₂
    obtain ⟨listenerFn₂, _, rfl⟩ := hmem₂
    exact hsnap
  · intro r hr p hrlt
    rw [hsnap] at hr
    refine List.mem_map.2 ⟨r, hr, ?_⟩
    rw [List.get?_eq_getElem?]
    exact List.getElem?_set_self hrlt

/-- C5 amended witness: a two-listener store over a one-object heap. -/
theorem snapshots_share_refs_witness :
    ((5, [0]) : Nat × List Ref).2 = (⟨[0], [5, 6]⟩ : ProjectStateRefs).projects ∧
    (∀ ev₂ ∈ updateListenersRefs ⟨[0], [5, 6]⟩,
      ((5, [0]) : Nat × List Ref).2 = ev₂.2) ∧
    (∀ r ∈ ((5, [0]) : Nat × List Ref).2, ∀ p : Project,
      r < ([⟨"a", "t", "d", 2, ProjectStatus.Active⟩] : Heap).length →
      some p ∈ readRefs
        (heapWrite [⟨"a", "t", "d", 2, ProjectStatus.Active⟩] r p)
        (⟨[0], [5, 6]⟩ : ProjectStateRefs).projects) :=
  snapshots_share_refs [⟨"a", "t", "d", 2, ProjectStatus.Active⟩]
    ⟨[0], [5, 6]⟩ (5, [0]) (by decide)

/-- C6: `gatherUserInput` rejects (returns nothing) exactly when all
three of the title, description and people validations fail — the
source's `!validate(title) && !validate(description) && !validate(people)`
guard — and returns the entered values whenever at least one of the
three validates. -/
theorem gatherUserInput_reject_iff (plus : String → Int)
    (t d pp : String) :
    (gatherUserInput plus t d pp = none ↔
      validate (titleValidatable t) = false ∧
      validate (descriptionValidatable d) = false ∧
      validate (peopleValidatable pp) = false) ∧
    (validate (titleValidatable t) = true ∨
      validate (descriptionValidatable d) = true ∨
      validate (peopleValidatable pp) = true →
      gatherUserInput plus t d pp = some (t, d, plus pp)) := by
  unfold gatherUserInput
  cases h1 : validate (titleValidatable t) <;>
    cases h2 : validate (descriptionValidatable d) <;>
      cases h3 : validate (peopleValidatable pp) <;> simp_all

/-- C6 witness: a valid title together with an empty description and an
empty people field is still accepted, because one passing validation
suffices. -/
theorem gatherUserInput_reject_iff_witness :
    gatherUserInput (fun _ => 0) "x" "" "" = some ("x", "", 0) :=
  (gatherUserInput_reject_iff (fun _ => 0) "x" "" "").2 (Or.inl (by decide))

/-- C7 counterexample: `dragOverHandler` consults only `types[0]`.  A
payload that declares `text/plain` as its second format — after
`text/html` — does declare the plain-text format, yet the handler
neither calls `preventDefault` (so the drop is not claimed) nor adds the
`droppable` affordance, contradicting the claim's "conversely" half. -/
theorem dragOver_declared_not_first :
    "text/plain" ∈ (["text/html", "text/plain"] : List String) ∧
    dragOverHandler ⟨some ⟨["text/html", "text/plain"], fun _ => ""⟩⟩
      = ⟨false, false⟩ ∧
    dropFires ⟨some ⟨["text/html", "text/plain"], fun _ => ""⟩⟩ = false :=
  ⟨by simp, rfl, rfl⟩

/-- C7 amended: the gate is on the *first* declared format.  When the
payload is absent or does not declare `text/plain` at all, the handler
claims nothing and applies no affordance and no drop fires (so `accept`
never runs and no store transition can occur); when `text/plain` is the
first declared format, the handler suppresses the default disallow-drop
behavior and applies the affordance.  A payload declaring `text/plain`
only in a non-first position is treated like one not declaring it. -/
theorem dragOver_first_type_gate (event : DragEvent) :
    (event.dataTransfer = none →
      dragOverHandler event = ⟨false, false⟩ ∧ dropFires event = false) ∧
    (∀ dt, event.dataTransfer = some dt →
      dt.types.head? ≠ some "text/plain" →
      dragOverHandler event = ⟨false, false⟩ ∧ dropFires event = false) ∧
    (∀ dt, event.dataTransfer = some dt → "text/plain" ∈ dt.types →
      dt.types.head? ≠ some "text/plain" →
      dragOverHandler event = ⟨false, false⟩ ∧ dropFires event = false) ∧
    (∀ dt, event.dataTransfer = some dt →
      dt.types.head? = some "text/plain" →
      dragOverHandler event = ⟨true, true⟩ ∧ dropFires event = true) := by
  have hneg : ∀ dt, event.dataTransfer = some dt →
      dt.types.head? ≠ some "text/plain" →
      dragOverHandler event = ⟨false, false⟩ ∧ dropFires event = false := by
    intro dt h hhead
    simp [dragOverHandler, dropFires, h, hhead]
  refine ⟨?_, hneg, ?_, ?_⟩
  · intro h
    simp [dragOverHandler, dropFires, h]
  · intro dt h _ hhead
    exact hneg dt h hhead
  · intro dt h hhead
    simp [dragOverHandler, dropFires, h, hhead]

/-- C7 amended witness: a payload whose first declared format is
`text/plain` is claimed and highlighted; a `text/html`-only payload is
not; and a payload declaring `text/plain` only in second position among
three formats is likewise not claimed or highlighted. -/
theorem dragOver_first_type_gate_witness :
    (dragOverHandler ⟨some ⟨["text/plain"], fun _ => "id1"⟩⟩ = ⟨true, true⟩ ∧
      dropFires ⟨some ⟨["text/plain"], fun _ => "id1"⟩⟩ = true) ∧
    (dragOverHandler ⟨some ⟨["text/html"], fun _ => "id1"⟩⟩ = ⟨false, false⟩ ∧
      dropFires ⟨some ⟨["text/html"], fun _ => "id1"⟩⟩ = false) ∧
    (dragOverHandler
        ⟨some ⟨["text/html", "text/plain", "text/uri-list"], fun _ => "id1"⟩⟩
      = ⟨false, false⟩ ∧
      dropFires
        ⟨some ⟨["text/html", "text/plain", "text/uri-list"], fun _ => "id1"⟩⟩
      = false) :=
  ⟨(dragOver_first_type_gate ⟨some ⟨["text/plain"], fun _ => "id1"⟩⟩).2.2.2
      ⟨["text/plain"], fun _ => "id1"⟩ rfl rfl,
    (dragOver_first_type_gate ⟨some ⟨["text/html"], fun _ => "id1"⟩⟩).2.1
      ⟨["text/html"], fun _ => "id1"⟩ rfl (by decide),
    (dragOver_first_type_gate
        ⟨some ⟨["text/html", "text/plain", "text/uri-list"], fun _ => "id1"⟩⟩).2.2.1
      ⟨["text/html", "text/plain", "text/uri-list"], fun _ => "id1"⟩ rfl
      (by decide) (by decide)⟩

/-- C8: `dropHandler`'s single transition request carries exactly the
`text/plain` payload string as the id and the column's fixed configured
status — `Active` for the active column, `Finished` for the finished
column — and its whole state effect is that one `moveProject` call (in
particular, when the payload names no stored project the store is left
untouched and no listener runs: the handler mutates nothing itself). -/
theorem dropHandler_single_transition (ty : ColumnType) (dt : DataTransfer)
    (s : ProjectState) :
    dropHandler ty dt s
      = moveProject s (dt.getData "text/plain") (dropType ty) ∧
    dropRequest ty dt = (dt.getData "text/plain", dropType ty) ∧
    dropType ColumnType.active = ProjectStatus.Active ∧
    dropType ColumnType.finished = ProjectStatus.Finished ∧
    ((∀ p ∈ s.projects, p.id ≠ dt.getData "text/plain") →
      dropHandler ty dt s = (s, [])) := by
  refine ⟨rfl, rfl, rfl, rfl, ?_⟩
  intro habs
  exact moveProject_silent s (dt.getData "text/plain") (dropType ty) (Or.inl habs)

/-- C8 witness: a stale payload id dropped on the active column of a
concrete one-project store leaves the store untouched. -/
theorem dropHandler_single_transition_witness :
    dropHandler ColumnType.active ⟨["text/plain"], fun _ => "zzz"⟩
      ⟨[⟨"a", "t", "d", 2, ProjectStatus.Active⟩], [7]⟩
    = (⟨[⟨"a", "t", "d", 2, ProjectStatus.Active⟩], [7]⟩, []) ∧
    dropType ColumnType.active = ProjectStatus.Active :=
  ⟨(dropHandler_single_transition ColumnType.active
      ⟨["text/plain"], fun _ => "zzz"⟩
      ⟨[⟨"a", "t", "d", 2, ProjectStatus.Active⟩], [7]⟩).2.2.2.2 (by decide),
    (dropHandler_single_transition ColumnType.active
      ⟨["text/plain"], fun _ => "zzz"⟩
      ⟨[⟨"a", "t", "d", 2, ProjectStatus.Active⟩], [7]⟩).2.2.1⟩

end DragDrop
